import Mathlib

/-!
Verification of the `deka` extension-scan scripts
(`crates/php-rs/bench/scan-framework-extensions.py` and
`crates/php-rs/bench/scan-packagist-extensions.py`) against their
natural-language specification.

The two Python scripts are shallowly embedded below.  JSON values are the
inductive `Json`; Python's dynamic attribute/index errors are modelled by
`Except String`; the network is modelled by an explicit environment
function from URL to fetched-and-decoded JSON (or a failure message in
the shape `"ExceptionType: message"`, matching the scripts' use of
`f"{type(exc).__name__}: {exc}"`).  String primitives (`str.replace`,
`str.startswith`, the `in` substring test, string comparison and decimal
rendering) are re-implemented over character lists because the Lean core
versions are compiled by well-founded recursion and do not evaluate
inside the kernel; each is documented with the Python primitive it
models.
-/

/-! ## String primitives (models of Python `str` operations) -/

/-- Model of Python prefix testing: is `p` a prefix of `s` (as char lists)? -/
def isPrefixChars : List Char → List Char → Bool
  | [], _ => true
  | _ :: _, [] => false
  | p :: ps, c :: cs => p == c && isPrefixChars ps cs

/-- Fuel-indexed worker for `pyReplace`.  Scans left to right; at each
position either consumes a full occurrence of `pat` (emitting `rep`) or
copies one character, exactly like CPython's `str.replace`.  One unit of
fuel is spent per step and every step consumes at least one character,
so fuel equal to the length of the string suffices. -/
def replFuel (pat rep : List Char) : Nat → List Char → List Char
  | _, [] => []
  | 0, s => s
  | Nat.succ fuel, c :: cs =>
    if isPrefixChars pat (c :: cs) then
      rep ++ replFuel pat rep fuel (List.drop (pat.length - 1) cs)
    else
      c :: replFuel pat rep fuel cs

/-- Model of Python `s.replace(pat, rep)`: replaces every non-overlapping
occurrence of `pat`, scanning left to right (not only a leading one). -/
def pyReplace (s pat rep : String) : String :=
  String.mk (replFuel pat.data rep.data s.data.length s.data)

/-- Model of Python `s.startswith(p)`. -/
def pyStartsWith (s p : String) : Bool := isPrefixChars p.data s.data

/-- Worker for `pyContains`. -/
def containsChars (pat : List Char) : List Char → Bool
  | [] => isPrefixChars pat []
  | c :: cs => isPrefixChars pat (c :: cs) || containsChars pat cs

/-- Model of Python `pat in s` (substring containment). -/
def pyContains (s pat : String) : Bool := containsChars pat.data s.data

/-- Lexicographic comparison of char lists by code point, mirroring how
Python compares strings. -/
def lexLeChars : List Char → List Char → Bool
  | [], _ => true
  | _ :: _, [] => false
  | a :: as, b :: bs =>
    if a.toNat < b.toNat then true
    else if a.toNat = b.toNat then lexLeChars as bs
    else false

/-- Model of Python string `<=` (used by `sorted` on strings). -/
def strLe (a b : String) : Bool := lexLeChars a.data b.data

/-- Model of Python `sorted` on a list of strings (a stable sort by
code-point order; for the total antisymmetric string order the sorted
output is unique, so any correct sort coincides with Python's). -/
def strSort (l : List String) : List String :=
  List.insertionSort (fun a b => strLe a b = true) l

/-- Decimal digit characters. -/
def digitChar (n : Nat) : Char :=
  match n with
  | 0 => '0' | 1 => '1' | 2 => '2' | 3 => '3' | 4 => '4'
  | 5 => '5' | 6 => '6' | 7 => '7' | 8 => '8' | _ => '9'

/-- Fuel-indexed decimal rendering worker (fuel bounds the digit count). -/
def natDigits : Nat → Nat → List Char
  | 0, _ => []
  | Nat.succ f, n => if n < 10 then [digitChar n] else natDigits f (n / 10) ++ [digitChar (n % 10)]

/-- Model of Python `str(n)` for a natural number. -/
def natToStr (n : Nat) : String := String.mk (natDigits (n + 1) n)

/-- Model of Python `str(n)` for an integer. -/
def intToStr (n : Int) : String :=
  match n with
  | Int.ofNat m => natToStr m
  | Int.negSucc m => "-" ++ natToStr (m + 1)

/-! ## JSON values and Python-operation semantics -/

/-- A decoded JSON document, as produced by `json.loads`.  Objects keep
their key order (CPython dicts preserve insertion order, and `json.loads`
produces objects with pairwise-distinct keys). -/
inductive Json where
  | null
  | bool (b : Bool)
  | num (n : Int)
  | str (s : String)
  | arr (elems : List Json)
  | obj (fields : List (String × Json))

/-- First-match association lookup on an object's field list (parsed
Python dicts have distinct keys, so this is dict lookup). -/
def lookupKey : List (String × Json) → String → Option Json
  | [], _ => none
  | p :: ps, k => if p.1 = k then some p.2 else lookupKey ps k

/-- Model of Python `d.get(k, default)`: requires `d` to be a dict,
raising `AttributeError` otherwise (e.g. when a manifest's `require`
value is a list or a string). -/
def dictGetD (j : Json) (k : String) (d : Json) : Except String Json :=
  match j with
  | .obj kvs => .ok ((lookupKey kvs k).getD d)
  | _ => .error "AttributeError: get"

/-- Model of Python `d.keys()` (in iteration order); raises
`AttributeError` on non-dicts. -/
def dictKeys : Json → Except String (List String)
  | .obj kvs => .ok (kvs.map Prod.fst)
  | _ => .error "AttributeError: keys"

/-- Model of Python truthiness (`if x:`) for decoded JSON values. -/
def Json.truthy : Json → Bool
  | .null => false
  | .bool b => b
  | .num n => decide (n ≠ 0)
  | .str s => decide (s ≠ "")
  | .arr xs => !xs.isEmpty
  | .obj kvs => !kvs.isEmpty

/-- Python dict keys must be hashable; decoded lists and dicts are not. -/
def Json.isHashable : Json → Bool
  | .arr _ => false
  | .obj _ => false
  | _ => true

/-- Key equality for hashable decoded-JSON dict keys, modelling Python
`==` on the decoded scalar values.  Python's `bool` is a subclass of
`int`, so `True == 1` and `False == 0` (with equal hashes): a boolean
and a number compare equal exactly when the number is the boolean's
integer value, and such names collide as a single dict key.  Unhashable
values never become keys. -/
def keyBeq : Json → Json → Bool
  | .null, .null => true
  | .bool a, .bool b => a == b
  | .bool a, .num n => decide ((if a then (1 : Int) else 0) = n)
  | .num n, .bool b => decide (n = (if b then (1 : Int) else 0))
  | .num a, .num b => decide (a = b)
  | .str a, .str b => decide (a = b)
  | _, _ => false

/-- Model of Python `for x in j`: lists yield elements, dicts yield their
keys, strings yield one-character strings; other values raise
`TypeError`. -/
def pyIter : Json → Except String (List Json)
  | .arr xs => .ok xs
  | .obj kvs => .ok (kvs.map (fun p => Json.str p.1))
  | .str s => .ok (s.data.map (fun c => Json.str (String.mk [c])))
  | _ => .error "TypeError: not iterable"

/-- Model of Python `j[k]` for a string key: dict lookup raising
`KeyError` when the key is absent, `TypeError` on non-dicts. -/
def pyIndex (j : Json) (k : String) : Except String Json :=
  match j with
  | .obj kvs =>
    match lookupKey kvs k with
    | some v => .ok v
    | none => .error ("KeyError: " ++ k)
  | _ => .error "TypeError: not subscriptable"

mutual

/-- Model of Python `repr` for decoded JSON values (string escaping
inside nested reprs is not modelled; no claim exercises it). -/
def pyRepr : Json → String
  | .null => "None"
  | .bool true => "True"
  | .bool false => "False"
  | .num n => intToStr n
  | .str s => "'" ++ s ++ "'"
  | .arr xs => "[" ++ pyReprElems xs ++ "]"
  | .obj kvs => "\x7b" ++ pyReprFields kvs ++ "\x7d"

/-- Comma-joined reprs of a list's elements. -/
def pyReprElems : List Json → String
  | [] => ""
  | [j] => pyRepr j
  | j :: rest => pyRepr j ++ ", " ++ pyReprElems rest

/-- Comma-joined reprs of a dict's entries. -/
def pyReprFields : List (String × Json) → String
  | [] => ""
  | [(k, v)] => "'" ++ k ++ "': " ++ pyRepr v
  | (k, v) :: rest => "'" ++ k ++ "': " ++ pyRepr v ++ ", " ++ pyReprFields rest

end

/-- Model of Python `str()` / f-string interpolation of a decoded JSON
value: a string interpolates verbatim, other values via `repr`-like
rendering. -/
def pyStr (j : Json) : String :=
  match j with
  | .str s => s
  | j => pyRepr j

/-! ## Requirement extraction (shared by both scripts) -/

/-- Model of
`sorted(k.replace("ext-", "") for k in req.keys() if k.startswith("ext-"))`:
the per-manifest extension list.  Raises (`AttributeError`) when `req`
is not a dict. -/
def extractExt (req : Json) : Except String (List String) := do
  let ks ← dictKeys req
  pure (strSort ((ks.filter (fun k => pyStartsWith k "ext-")).map (fun k => pyReplace k "ext-" "")))

/-- Model of the framework script's per-source body after decoding:
`req = data.get("require", {})`, the extension list, and
`req.get("php", "")`, in that evaluation order. -/
def fetchAndExtract (data : Json) : Except String (Json × List String) := do
  let req ← dictGetD data "require" (Json.obj [])
  let ext ← extractExt req
  let php ← dictGetD req "php" (Json.str "")
  pure (php, ext)

/-! ## Framework scan (static source table) -/

/-- A successful per-framework result, the `results[name]` dict of the
framework script (the spec's ManifestRecord). -/
structure FrameworkInfo where
  url : String
  php : Json
  extensions : List String

/-- The static source table of the framework script, in order. -/
def frameworks : List (String × String) :=
  [("Laravel", "https://raw.githubusercontent.com/laravel/framework/11.x/composer.json"),
   ("Symfony", "https://raw.githubusercontent.com/symfony/symfony/7.2/composer.json"),
   ("Magento", "https://raw.githubusercontent.com/magento/magento2/2.4-develop/composer.json"),
   ("Drupal", "https://raw.githubusercontent.com/drupal/drupal/10.3.x/composer.json"),
   ("WordPress", "https://raw.githubusercontent.com/WordPress/wordpress-develop/trunk/composer.json")]

/-- Everything inside the framework script's per-source `try` block up to
the point where the `results` entry is built. -/
def processSource (fetch : String → Except String Json) (url : String) :
    Except String (Json × List String) := do
  let data ← fetch url
  fetchAndExtract data

/-- Ordered-dict insertion with string keys: overwriting keeps the
original position (CPython dict semantics); a fresh key is appended. -/
def insertS {α : Type} (m : List (String × α)) (k : String) (v : α) : List (String × α) :=
  if m.any (fun p => decide (p.1 = k)) then
    m.map (fun p => if p.1 = k then (p.1, v) else p)
  else
    m ++ [(k, v)]

/-- One iteration of the framework script's source loop: a success goes
into `results`, any exception into `errors`. -/
def fwStep (fetch : String → Except String Json)
    (acc : List (String × FrameworkInfo) × List (String × String)) (src : String × String) :
    List (String × FrameworkInfo) × List (String × String) :=
  match processSource fetch src.2 with
  | .ok r => (insertS acc.1 src.1 ⟨src.2, r.1, r.2⟩, acc.2)
  | .error e => (acc.1, insertS acc.2 src.1 e)

/-- The framework script's whole fetch/extract loop, producing the
`results` and `errors` mappings (in insertion order). -/
def runFramework (fetch : String → Except String Json) :
    List (String × FrameworkInfo) × List (String × String) :=
  frameworks.foldl (fwStep fetch) ([], [])

/-! ## Packagist scan (discovery variant) -/

/-- Model of `PACKAGE_URL.format(name=name)`. -/
def packageUrl (name : Json) : String :=
  "https://packagist.org/packages/" ++ pyStr name ++ ".json"

/-- Model of the version-selection loop: the first version key not
containing `"dev"`, else `next(iter(versions.keys()))` (the first key). -/
def chooseVersion (ks : List String) : Option String :=
  match ks.find? (fun v => !pyContains v "dev") with
  | some v => some v
  | none => ks.head?

/-- Model of the packagist script's per-package `try` body after
decoding: read `package`, then `versions`; an empty (falsy) `versions`
yields `[]` via the `continue` branch; otherwise select a version and
extract from its `require` mapping. -/
def processPackage (data : Json) : Except String (List String) := do
  let pkg ← dictGetD data "package" (Json.obj [])
  let versions ← dictGetD pkg "versions" (Json.obj [])
  if versions.truthy then do
    let ks ← dictKeys versions
    match chooseVersion ks with
    | some version => do
      let vman ← dictGetD versions version (Json.obj [])
      let req ← dictGetD vman "require" (Json.obj [])
      extractExt req
    | none => .error "StopIteration"
  else
    pure []

/-- Ordered-dict insertion for `package_ext`, with decoded-JSON keys:
an existing equal key is overwritten in place (keeping the original key
object), a fresh key is appended. -/
def insertPkg (m : List (Json × List String)) (k : Json) (v : List String) :
    List (Json × List String) :=
  if m.any (fun p => keyBeq p.1 k) then
    m.map (fun p => if keyBeq p.1 k then (p.1, v) else p)
  else
    m ++ [(k, v)]

/-- Everything inside the packagist script's per-package `try` block up
to the point where the `package_ext` entry is assigned. -/
def pkgOutcome (fetch : String → Except String Json) (name : Json) :
    Except String (List String) := do
  let data ← fetch (packageUrl name)
  processPackage data

/-- One iteration of the packagist per-package loop.  A success is
stored under the package name (an unhashable name raises `TypeError` at
the dict assignment, which the same `except` catches); any exception is
appended to the `errors` list as `f"{name}: {type}: {message}"`. -/
def pkgStep (fetch : String → Except String Json)
    (acc : List (Json × List String) × List String) (name : Json) :
    List (Json × List String) × List String :=
  match pkgOutcome fetch name with
  | .ok ext =>
    if name.isHashable then (insertPkg acc.1 name ext, acc.2)
    else (acc.1, acc.2 ++ [pyStr name ++ ": TypeError: unhashable type"])
  | .error e => (acc.1, acc.2 ++ [pyStr name ++ ": " ++ e])

/-- Model of the packagist script's discovery `try` block:
`names = [item["name"] for item in data.get("packages", [])][:TOP_N]`.
The comprehension runs over the whole sequence before truncation, so a
failure on any entry fails the whole block. -/
def discover (pop : Except String Json) (topN : Nat) : Except String (List Json) := do
  let data ← pop
  let pkgsVal ← dictGetD data "packages" (Json.arr [])
  let items ← pyIter pkgsVal
  let names ← items.mapM (fun item => pyIndex item "name")
  pure (names.take topN)

/-- The packagist script's whole run up to aggregation: a discovery
failure is recorded as the single error `"popular list: ..."` and the
per-package loop runs over zero names; otherwise the loop runs over the
discovered names. -/
def runPackagist (pop : Except String Json) (fetch : String → Except String Json)
    (topN : Nat) : List (Json × List String) × List String :=
  match discover pop topN with
  | .error e => ([], ["popular list: " ++ e])
  | .ok names => names.foldl (pkgStep fetch) ([], [])

/-! ## Aggregation -/

/-- Model of `Counter` lookup after `counter.update(exts)` per result:
the total number of occurrences of `e` across the per-source extension
lists (`Counter.update` adds list multiplicities). -/
def freqCount (lists : List (List String)) (e : String) : Nat :=
  (lists.map (fun l => l.countP (fun x => decide (x = e)))).sum

/-- Model of `sorted(counter.keys())`: the sorted distinct extension
names (dedup order is irrelevant because the result is sorted by the
antisymmetric string order). -/
def allExtSorted (lists : List (List String)) : List String :=
  strSort (lists.flatten).dedup

/-! ## Report rendering -/

/-- One per-framework detail block of the framework report. -/
def fwBlock (p : String × FrameworkInfo) : List String :=
  ["### " ++ p.1, "", "Source: " ++ p.2.url]
  ++ (if p.2.php.truthy then ["PHP: " ++ pyStr p.2.php] else [])
  ++ ["Extensions:",
      if p.2.extensions.isEmpty then "(none found in composer.json)"
      else String.intercalate ", " p.2.extensions,
      ""]

/-- The framework report's title block. -/
def fwTitle (now : String) : List String :=
  ["# PHP Extension Requirements (Framework Scan)", "", "Generated: " ++ now, "",
   "Sources: composer.json require ext-* keys (framework repos).", ""]

/-- The framework report's error section (only emitted when nonempty). -/
def fwErrSection (errors : List (String × String)) : List String :=
  ["## Fetch errors", ""] ++ errors.map (fun p => "- " ++ p.1 ++ ": " ++ p.2) ++ [""]

/-- The aggregate-union section shared shape: comma-joined sorted union
or a placeholder. -/
def unionSection (lists : List (List String)) : List String :=
  ["## Aggregate (union)", "",
   (if (allExtSorted lists).isEmpty then "(none)"
    else String.intercalate ", " (allExtSorted lists)),
   ""]

/-- The frequency-table section shared shape: fixed header then one row
per extension name in sorted order. -/
def freqSection (lists : List (List String)) : List String :=
  ["## Frequency", "", "| Extension | Count |", "| --- | --- |"]
  ++ (allExtSorted lists).map (fun e => "| " ++ e ++ " | " ++ natToStr (freqCount lists e) ++ " |")
  ++ [""]

/-- The framework script's rendered Markdown document (as its list of
lines), with the generation timestamp passed in as `now`. -/
def frameworkReport (now : String) (results : List (String × FrameworkInfo))
    (errors : List (String × String)) : List String :=
  ["# PHP Extension Requirements (Framework Scan)", "", "Generated: " ++ now, "",
   "Sources: composer.json require ext-* keys (framework repos).", ""]
  ++ (if errors.isEmpty then [] else
        ["## Fetch errors", ""] ++ errors.map (fun p => "- " ++ p.1 ++ ": " ++ p.2) ++ [""])
  ++ ["## Per-framework requirements", ""]
  ++ (results.map fwBlock).flatten
  ++ ["## Aggregate (union)", "",
      (if (allExtSorted (results.map (fun p => p.2.extensions))).isEmpty then "(none)"
       else String.intercalate ", " (allExtSorted (results.map (fun p => p.2.extensions)))),
      ""]
  ++ ["## Frequency", "", "| Extension | Count |", "| --- | --- |"]
  ++ (allExtSorted (results.map (fun p => p.2.extensions))).map
      (fun e => "| " ++ e ++ " | " ++
        natToStr (freqCount (results.map (fun p => p.2.extensions)) e) ++ " |")
  ++ [""]

/-- The packagist report's title block. -/
def pkTitle (now : String) (topN : Nat) : List String :=
  ["# PHP Extension Requirements (Top Composer Packages)", "",
   "Generated: " ++ now, "Top N: " ++ natToStr topN, "",
   "Sources: packagist popular list + package.json require ext-* keys.", ""]

/-- The packagist report's error section (only emitted when nonempty). -/
def pkErrSection (errors : List String) : List String :=
  ["## Fetch errors", ""] ++ errors.map (fun e => "- " ++ e) ++ [""]

/-- Model of `sorted(package_ext.keys())` together with the lookup of
each name's list: the entries sorted by rendered key (all keys arising
from real runs are strings, for which this is Python's string sort). -/
def sortByKey (m : List (Json × List String)) : List (Json × List String) :=
  List.insertionSort (fun p q => strLe (pyStr p.1) (pyStr q.1) = true) m

/-- One per-package line of the packagist report. -/
def pkgLine (p : Json × List String) : String :=
  "- " ++ pyStr p.1 ++ ": " ++
    (if p.2.isEmpty then "(none)" else String.intercalate ", " p.2)

/-- The packagist script's rendered Markdown document (as its list of
lines). -/
def packagistReport (now : String) (topN : Nat) (packageExt : List (Json × List String))
    (errors : List String) : List String :=
  ["# PHP Extension Requirements (Top Composer Packages)", "",
   "Generated: " ++ now, "Top N: " ++ natToStr topN, "",
   "Sources: packagist popular list + package.json require ext-* keys.", ""]
  ++ (if errors.isEmpty then [] else
        ["## Fetch errors", ""] ++ errors.map (fun e => "- " ++ e) ++ [""])
  ++ ["## Aggregate (union)", "",
      (if (allExtSorted (packageExt.map Prod.snd)).isEmpty then "(none)"
       else String.intercalate ", " (allExtSorted (packageExt.map Prod.snd))),
      ""]
  ++ ["## Frequency", "", "| Extension | Count |", "| --- | --- |"]
  ++ (allExtSorted (packageExt.map Prod.snd)).map
      (fun e => "| " ++ e ++ " | " ++
        natToStr (freqCount (packageExt.map Prod.snd) e) ++ " |")
  ++ [""]
  ++ ["## Per-package (extensions)", ""]
  ++ (sortByKey packageExt).map pkgLine

/-- Reading of the claim that the extractor strips the fixed prefix from
each matching key.  Modelled from the spec words, not the code: for a
key beginning with `"ext-"` the collected name is the key with only the
leading four-character prefix removed. -/
def extractExtSpec (req : Json) : Except String (List String) := do
  let ks ← dictKeys req
  pure (strSort ((ks.filter (fun k => pyStartsWith k "ext-")).map (fun k => k.drop 4)))

/-! ## Auxiliary definitions used in the statements -/

/-- Index of the first occurrence of a line in a rendered document
(length of the list when absent). -/
def idxOfStr (l : List String) (s : String) : Nat :=
  match l with
  | [] => 0
  | x :: xs => if x = s then 0 else idxOfStr xs s + 1

/-- ASCII lower-casing of a character (used only to state that two
require keys differ only in letter case). -/
def lowerChar (c : Char) : Char :=
  match c with
  | 'A' => 'a' | 'B' => 'b' | 'C' => 'c' | 'D' => 'd' | 'E' => 'e' | 'F' => 'f'
  | 'G' => 'g' | 'H' => 'h' | 'I' => 'i' | 'J' => 'j' | 'K' => 'k' | 'L' => 'l'
  | 'M' => 'm' | 'N' => 'n' | 'O' => 'o' | 'P' => 'p' | 'Q' => 'q' | 'R' => 'r'
  | 'S' => 's' | 'T' => 't' | 'U' => 'u' | 'V' => 'v' | 'W' => 'w' | 'X' => 'x'
  | 'Y' => 'y' | 'Z' => 'z' | c => c

/-- ASCII lower-casing of a string. -/
def lowerStr (s : String) : String := String.mk (s.data.map lowerChar)

/-! ## Concrete environments used by counterexamples and scenarios -/

/-- Environment in which Laravel's manifest declares both `ext-curl` and
`ext-ext-curl` and every other fetch fails. -/
def badFetch : String → Except String Json := fun url =>
  if url = "https://raw.githubusercontent.com/laravel/framework/11.x/composer.json" then
    .ok (Json.obj [("require", Json.obj [("ext-curl", Json.str "*"), ("ext-ext-curl", Json.str "*")])])
  else
    .error "URLError: unreachable"

/-- Environment in which Laravel's manifest carries a `require` value of
the wrong shape (a list) and every other manifest is an empty object. -/
def badReqFetch : String → Except String Json := fun url =>
  if url = "https://raw.githubusercontent.com/laravel/framework/11.x/composer.json" then
    .ok (Json.obj [("require", Json.arr [Json.str "ext-curl"])])
  else
    .ok (Json.obj [])

/-- A popular-list response naming the same package twice. -/
def dupPop : Except String Json :=
  .ok (Json.obj [("packages", Json.arr [Json.obj [("name", Json.str "a")],
    Json.obj [("name", Json.str "a")]])])

/-- A popular-list response with a single well-formed entry. -/
def onePkgPop : Except String Json :=
  .ok (Json.obj [("packages", Json.arr [Json.obj [("name", Json.str "a")]])])

/-- A popular-list response whose two entries are named by the decoded
JSON values `true` and `1`; Python compares these equal as dict keys. -/
def boolIntPop : Except String Json :=
  .ok (Json.obj [("packages", Json.arr [Json.obj [("name", Json.bool true)],
    Json.obj [("name", Json.num 1)]])])

/-- A popular-list response whose second entry lacks the `name` field. -/
def badEntryPop : Except String Json :=
  .ok (Json.obj [("packages", Json.arr [Json.obj [("name", Json.str "laravel/laravel")],
    Json.obj [("other", Json.str "x")]])])

/-- Per-package environment returning metadata with an empty `versions`
mapping for every package. -/
def emptyVersionsFetch : String → Except String Json := fun _ =>
  .ok (Json.obj [("package", Json.obj [("versions", Json.obj [])])])

/-- Package metadata with the given `versions` mapping. -/
def verData (vs : List (String × Json)) : Json :=
  Json.obj [("package", Json.obj [("versions", Json.obj vs)])]

/-- The packagist report rendered for one successful package and no
errors (used to exhibit the actual section order). -/
def cexReportList : List String :=
  packagistReport "T" 2 [(Json.str "a", ["curl"])] []

/-! ## Helper lemmas -/

/-- Unfolding of lexicographic comparison at a cons/cons pair. -/
theorem lexLeChars_cons_iff (a b : Char) (as bs : List Char) :
    lexLeChars (a :: as) (b :: bs) = true ↔
      (a.toNat < b.toNat ∨ (a.toNat = b.toNat ∧ lexLeChars as bs = true)) := by
  simp only [lexLeChars]
  by_cases h1 : a.toNat < b.toNat
  · simp [h1]
  · by_cases h2 : a.toNat = b.toNat
    · simp [h1, h2]
    · simp [h1, h2]

/-- The code-point order on char lists is total. -/
theorem lexLeChars_total (as : List Char) : ∀ bs,
    lexLeChars as bs = true ∨ lexLeChars bs as = true := by
  induction as with
  | nil => intro bs; exact Or.inl rfl
  | cons a as ih =>
    intro bs
    cases bs with
    | nil => exact Or.inr rfl
    | cons b bs =>
      rcases Nat.lt_trichotomy a.toNat b.toNat with h | h | h
      · exact Or.inl ((lexLeChars_cons_iff a b as bs).mpr (Or.inl h))
      · rcases ih bs with h2 | h2
        · exact Or.inl ((lexLeChars_cons_iff a b as bs).mpr (Or.inr ⟨h, h2⟩))
        · exact Or.inr ((lexLeChars_cons_iff b a bs as).mpr (Or.inr ⟨h.symm, h2⟩))
      · exact Or.inr ((lexLeChars_cons_iff b a bs as).mpr (Or.inl h))

/-- The code-point order on char lists is transitive. -/
theorem lexLeChars_trans (as : List Char) : ∀ bs cs,
    lexLeChars as bs = true → lexLeChars bs cs = true → lexLeChars as cs = true := by
  induction as with
  | nil => intro bs cs _ _; rfl
  | cons a as ih =>
    intro bs cs h1 h2
    cases bs with
    | nil => simp [lexLeChars] at h1
    | cons b bs =>
      cases cs with
      | nil => simp [lexLeChars] at h2
      | cons c cs =>
        rcases (lexLeChars_cons_iff a b as bs).mp h1 with hab | ⟨hab, hab2⟩ <;>
          rcases (lexLeChars_cons_iff b c bs cs).mp h2 with hbc | ⟨hbc, hbc2⟩ <;>
          apply (lexLeChars_cons_iff a c as cs).mpr
        · exact Or.inl (Nat.lt_trans hab hbc)
        · exact Or.inl (hbc ▸ hab)
        · exact Or.inl (hab ▸ hbc)
        · exact Or.inr ⟨hab.trans hbc, ih bs cs hab2 hbc2⟩

instance : IsTotal String (fun a b => strLe a b = true) :=
  ⟨fun a b => lexLeChars_total a.data b.data⟩

instance : IsTrans String (fun a b => strLe a b = true) :=
  ⟨fun a b c => lexLeChars_trans a.data b.data c.data⟩

instance : IsTotal (Json × List String) (fun p q => strLe (pyStr p.1) (pyStr q.1) = true) :=
  ⟨fun x y => lexLeChars_total (pyStr x.1).data (pyStr y.1).data⟩

instance : IsTrans (Json × List String) (fun p q => strLe (pyStr p.1) (pyStr q.1) = true) :=
  ⟨fun x y z => lexLeChars_trans (pyStr x.1).data (pyStr y.1).data (pyStr z.1).data⟩

/-- The model of Python `sorted` really sorts. -/
theorem strSort_sorted (l : List String) :
    List.Sorted (fun a b => strLe a b = true) (strSort l) :=
  List.sorted_insertionSort _ l

/-- Sorting preserves membership. -/
theorem mem_strSort {x : String} {l : List String} : x ∈ strSort l ↔ x ∈ l :=
  (List.perm_insertionSort _ l).mem_iff

/-- Inserting under a fresh key grows the mapping by one entry. -/
theorem insertS_len_fresh {α : Type} (m : List (String × α)) (k : String) (v : α)
    (h : m.any (fun p => decide (p.1 = k)) = false) :
    (insertS m k v).length = m.length + 1 := by
  simp [insertS, h]

/-- After insertion the key is present. -/
theorem insertS_hasK_self {α : Type} (m : List (String × α)) (k : String) (v : α) :
    (insertS m k v).any (fun p => decide (p.1 = k)) = true := by
  by_cases h : m.any (fun p => decide (p.1 = k)) = true
  · have hf : ((fun p : String × α => decide (p.1 = k)) ∘
        (fun p : String × α => if p.1 = k then (p.1, v) else p))
        = fun p : String × α => decide (p.1 = k) := by
      funext p; by_cases hp : p.1 = k <;> simp [Function.comp, hp]
    rw [insertS, if_pos h, List.any_map, hf]
    exact h
  · rw [insertS, if_neg h, List.any_append]
    simp

/-- Insertion does not affect presence of other keys. -/
theorem insertS_hasK_ne {α : Type} (m : List (String × α)) (k k2 : String) (v : α)
    (hne : k ≠ k2) :
    (insertS m k v).any (fun p => decide (p.1 = k2)) = m.any (fun p => decide (p.1 = k2)) := by
  by_cases h : m.any (fun p => decide (p.1 = k)) = true
  · have hf : ((fun p : String × α => decide (p.1 = k2)) ∘
        (fun p : String × α => if p.1 = k then (p.1, v) else p))
        = fun p : String × α => decide (p.1 = k2) := by
      funext p; by_cases hp : p.1 = k <;> simp [Function.comp, hp]
    rw [insertS, if_pos h, List.any_map, hf]
  · rw [insertS, if_neg h, List.any_append]
    simp [hne]

/-- Inserting under a fresh key grows `package_ext` by one entry. -/
theorem insertPkg_len_fresh (m : List (Json × List String)) (k : Json) (v : List String)
    (h : m.any (fun p => keyBeq p.1 k) = false) :
    (insertPkg m k v).length = m.length + 1 := by
  simp [insertPkg, h]

/-- Insertion does not affect presence of keys that differ from the
inserted one. -/
theorem insertPkg_any_ne (m : List (Json × List String)) (k k2 : Json) (v : List String)
    (hne : keyBeq k k2 = false) :
    (insertPkg m k v).any (fun p => keyBeq p.1 k2) = m.any (fun p => keyBeq p.1 k2) := by
  by_cases h : m.any (fun p => keyBeq p.1 k) = true
  · have hf : ((fun p : Json × List String => keyBeq p.1 k2) ∘
        (fun p : Json × List String => if keyBeq p.1 k then (p.1, v) else p))
        = fun p : Json × List String => keyBeq p.1 k2 := by
      funext p; by_cases hp : keyBeq p.1 k = true <;> simp [Function.comp, hp]
    rw [insertPkg, if_pos h, List.any_map, hf]
  · rw [insertPkg, if_neg h, List.any_append]
    simp [hne]

/-- The packagist per-package loop adds exactly one entry (result or
error) per processed name, provided no two names compare equal as
Python dict keys and none is already a result key. -/
theorem pkgFold_len (fetch : String → Except String Json) (names : List Json) :
    ∀ acc : List (Json × List String) × List String,
    List.Pairwise (fun a b => keyBeq a b = false) names →
    (∀ n ∈ names, acc.1.any (fun p => keyBeq p.1 n) = false) →
    (names.foldl (pkgStep fetch) acc).1.length + (names.foldl (pkgStep fetch) acc).2.length
      = acc.1.length + acc.2.length + names.length := by
  induction names with
  | nil => intro acc _ _; simp
  | cons n ns ih =>
    intro acc hnd hfresh
    obtain ⟨hkb, hnd2⟩ := List.pairwise_cons.mp hnd
    have hfn := hfresh n (List.mem_cons_self n ns)
    have hstep : (pkgStep fetch acc n).1.length + (pkgStep fetch acc n).2.length
        = acc.1.length + acc.2.length + 1 ∧
        ∀ m ∈ ns, (pkgStep fetch acc n).1.any (fun p => keyBeq p.1 m) = false := by
      unfold pkgStep
      cases hp : pkgOutcome fetch n with
      | ok ext =>
        dsimp only
        by_cases hh : n.isHashable = true
        · constructor
          · simp only [hh, if_true, insertPkg_len_fresh acc.1 n ext hfn]
            omega
          · intro m hm
            simp only [hh, if_true]
            rw [insertPkg_any_ne acc.1 n m ext (hkb m hm)]
            exact hfresh m (List.mem_cons_of_mem n hm)
        · constructor
          · simp only [hh, if_false, Bool.false_eq_true, List.length_append,
              List.length_cons, List.length_nil]
            omega
          · intro m hm
            simp only [hh, if_false, Bool.false_eq_true]
            exact hfresh m (List.mem_cons_of_mem n hm)
      | error e =>
        dsimp only
        constructor
        · simp only [List.length_append, List.length_cons, List.length_nil]
          omega
        · intro m hm
          exact hfresh m (List.mem_cons_of_mem n hm)
    obtain ⟨hlen, hfr⟩ := hstep
    rw [List.foldl_cons, ih (pkgStep fetch acc n) hnd2 hfr]
    simp only [List.length_cons]
    omega

/-- Keys that name no remaining source are untouched by the rest of the
framework loop (in both accumulators). -/
theorem fwFold_frozen (fetch : String → Except String Json) (srcs : List (String × String)) :
    ∀ acc : List (String × FrameworkInfo) × List (String × String), ∀ k : String,
    (∀ s ∈ srcs, s.1 ≠ k) →
    ((srcs.foldl (fwStep fetch) acc).1.any (fun p => decide (p.1 = k))
       = acc.1.any (fun p => decide (p.1 = k))) ∧
    ((srcs.foldl (fwStep fetch) acc).2.any (fun p => decide (p.1 = k))
       = acc.2.any (fun p => decide (p.1 = k))) := by
  induction srcs with
  | nil => intro acc k _; exact ⟨rfl, rfl⟩
  | cons s ss ih =>
    intro acc k hk
    have hs : s.1 ≠ k := hk s (List.mem_cons_self s ss)
    have hstep : ((fwStep fetch acc s).1.any (fun p => decide (p.1 = k))
          = acc.1.any (fun p => decide (p.1 = k))) ∧
        ((fwStep fetch acc s).2.any (fun p => decide (p.1 = k))
          = acc.2.any (fun p => decide (p.1 = k))) := by
      unfold fwStep
      cases hp : processSource fetch s.2 with
      | ok r => exact ⟨insertS_hasK_ne acc.1 s.1 k _ hs, rfl⟩
      | error e => exact ⟨rfl, insertS_hasK_ne acc.2 s.1 k e hs⟩
    rw [List.foldl_cons]
    obtain ⟨ih1, ih2⟩ := ih (fwStep fetch acc s) k (fun t ht => hk t (List.mem_cons_of_mem s ht))
    exact ⟨ih1.trans hstep.1, ih2.trans hstep.2⟩

/-- The framework loop adds exactly one entry per source and files each
source name in exactly one of the two accumulators, provided the source
names are pairwise distinct and fresh for both accumulators. -/
theorem fwFold_main (fetch : String → Except String Json) (srcs : List (String × String)) :
    ∀ acc : List (String × FrameworkInfo) × List (String × String),
    (srcs.map Prod.fst).Nodup →
    (∀ s ∈ srcs, acc.1.any (fun p => decide (p.1 = s.1)) = false) →
    (∀ s ∈ srcs, acc.2.any (fun p => decide (p.1 = s.1)) = false) →
    ((srcs.foldl (fwStep fetch) acc).1.length + (srcs.foldl (fwStep fetch) acc).2.length
       = acc.1.length + acc.2.length + srcs.length) ∧
    (∀ s ∈ srcs,
      ((srcs.foldl (fwStep fetch) acc).1.any (fun p => decide (p.1 = s.1)) = true ∧
       (srcs.foldl (fwStep fetch) acc).2.any (fun p => decide (p.1 = s.1)) = false) ∨
      ((srcs.foldl (fwStep fetch) acc).1.any (fun p => decide (p.1 = s.1)) = false ∧
       (srcs.foldl (fwStep fetch) acc).2.any (fun p => decide (p.1 = s.1)) = true)) := by
  induction srcs with
  | nil => intro acc _ _ _; exact ⟨by simp, by simp⟩
  | cons s ss ih =>
    intro acc hnd hr he
    rw [List.map_cons, List.nodup_cons] at hnd
    obtain ⟨hs, hnd2⟩ := hnd
    have hdiff : ∀ t ∈ ss, t.1 ≠ s.1 := by
      intro t ht heq
      exact hs (heq ▸ List.mem_map_of_mem Prod.fst ht)
    have hrs := hr s (List.mem_cons_self s ss)
    have hes := he s (List.mem_cons_self s ss)
    have hstep : ((fwStep fetch acc s).1.length + (fwStep fetch acc s).2.length
          = acc.1.length + acc.2.length + 1) ∧
        (((fwStep fetch acc s).1.any (fun p => decide (p.1 = s.1)) = true ∧
          (fwStep fetch acc s).2.any (fun p => decide (p.1 = s.1)) = false) ∨
         ((fwStep fetch acc s).1.any (fun p => decide (p.1 = s.1)) = false ∧
          (fwStep fetch acc s).2.any (fun p => decide (p.1 = s.1)) = true)) ∧
        (∀ t ∈ ss, (fwStep fetch acc s).1.any (fun p => decide (p.1 = t.1)) = false) ∧
        (∀ t ∈ ss, (fwStep fetch acc s).2.any (fun p => decide (p.1 = t.1)) = false) := by
      unfold fwStep
      cases hp : processSource fetch s.2 with
      | ok r =>
        dsimp only
        refine ⟨?_, Or.inl ⟨insertS_hasK_self acc.1 s.1 _, hes⟩, ?_, ?_⟩
        · rw [insertS_len_fresh acc.1 s.1 _ hrs]
          omega
        · intro t ht
          rw [insertS_hasK_ne acc.1 s.1 t.1 _ (fun h2 => hdiff t ht h2.symm)]
          exact hr t (List.mem_cons_of_mem s ht)
        · intro t ht
          exact he t (List.mem_cons_of_mem s ht)
      | error e =>
        dsimp only
        refine ⟨?_, Or.inr ⟨hrs, insertS_hasK_self acc.2 s.1 e⟩, ?_, ?_⟩
        · rw [insertS_len_fresh acc.2 s.1 e hes]
          omega
        · intro t ht
          exact hr t (List.mem_cons_of_mem s ht)
        · intro t ht
          rw [insertS_hasK_ne acc.2 s.1 t.1 e (fun h2 => hdiff t ht h2.symm)]
          exact he t (List.mem_cons_of_mem s ht)
    obtain ⟨hlen, hone, hfr, hfe⟩ := hstep
    obtain ⟨ihlen, ihone⟩ := ih (fwStep fetch acc s) hnd2 hfr hfe
    constructor
    · rw [List.foldl_cons, ihlen]
      simp only [List.length_cons]
      omega
    · intro t ht
      rcases List.mem_cons.mp ht with rfl | ht2
      · obtain ⟨hf1, hf2⟩ := fwFold_frozen fetch ss (fwStep fetch acc t) t.1 (hdiff)
        rw [List.foldl_cons, hf1, hf2]
        exact hone
      · exact ihone t ht2

/-- A successful `find?` splits its list at the found element, with the
test failing on everything before it. -/
theorem find?_decomp {α : Type} (p : α → Bool) (l : List α) :
    ∀ v : α, l.find? p = some v →
    ∃ pre post, l = pre ++ v :: post ∧ ∀ w ∈ pre, p w = false := by
  induction l with
  | nil => intro v h; simp [List.find?] at h
  | cons x xs ih =>
    intro v h
    by_cases hx : p x = true
    · rw [List.find?_cons_of_pos _ hx] at h
      cases h
      exact ⟨[], xs, rfl, by simp⟩
    · rw [List.find?_cons_of_neg _ (by simpa using hx)] at h
      obtain ⟨pre, post, heq, hall⟩ := ih v h
      refine ⟨x :: pre, post, by simp [heq], ?_⟩
      intro w hw
      rcases List.mem_cons.mp hw with rfl | hw2
      · simpa using hx
      · exact hall w hw2

/-- Characterisation of the version-selection loop: it returns the first
key not containing `"dev"`, and when all keys contain `"dev"` it falls
back to the first key. -/
theorem chooseVersion_spec (ks : List String) (hne : ks ≠ []) :
    ∃ v, chooseVersion ks = some v ∧
      ((pyContains v "dev" = false ∧
        ∃ pre post, ks = pre ++ v :: post ∧ ∀ w ∈ pre, pyContains w "dev" = true) ∨
       ((∀ w ∈ ks, pyContains w "dev" = true) ∧ ks.head? = some v)) := by
  cases hfind : ks.find? (fun v => !pyContains v "dev") with
  | some v =>
    refine ⟨v, ?_, Or.inl ⟨?_, ?_⟩⟩
    · simp [chooseVersion, hfind]
    · have := List.find?_some hfind
      simpa using this
    · obtain ⟨pre, post, heq, hall⟩ := find?_decomp _ ks v hfind
      refine ⟨pre, post, heq, ?_⟩
      intro w hw
      have := hall w hw
      simpa using this
  | none =>
    cases ks with
    | nil => exact absurd rfl hne
    | cons k rest =>
      refine ⟨k, ?_, Or.inr ⟨?_, rfl⟩⟩
      · simp [chooseVersion, hfind]
      · intro w hw
        have := List.find?_eq_none.mp hfind w hw
        simpa using this

/-- Counting matches of one element in a duplicate-free list gives its
membership indicator. -/
theorem countP_eq_of_nodup (l : List String) (e : String) (h : l.Nodup) :
    l.countP (fun x => decide (x = e)) = if e ∈ l then 1 else 0 := by
  induction l with
  | nil => simp
  | cons a l ih =>
    obtain ⟨ha, hl⟩ := List.nodup_cons.mp h
    rw [List.countP_cons]
    by_cases hae : a = e
    · subst hae
      simp [ih hl, ha]
    · have hea : ¬ e = a := fun h2 => hae h2.symm
      simp [ih hl, hae, List.mem_cons, hea]

/-! ## Claim theorems -/

/-- C1 counterexample: the extractor does not merely strip the leading
`"ext-"` prefix.  For the require key `"ext-ext-foo"` the code collects
`"foo"` (removing every occurrence of `"ext-"`), while the claimed
prefix-stripping reading collects `"ext-foo"`. -/
theorem c1_counterexample :
    extractExt (Json.obj [("ext-ext-foo", Json.str "*")]) = Except.ok ["foo"] ∧
    extractExtSpec (Json.obj [("ext-ext-foo", Json.str "*")]) = Except.ok ["ext-foo"] ∧
    ("foo" : String) ≠ "ext-foo" :=
  ⟨rfl, rfl, by decide⟩

/-- C1 amended: for every manifest the extractor takes each `require`
key beginning with `"ext-"` and collects the key with every occurrence
of the substring `"ext-"` removed (not only the leading prefix); on the
scenario manifest this yields runtime `">=8.1"` and extensions
`["curl", "mbstring"]` exactly as claimed. -/
theorem c1_amended :
    (∀ kvs l, extractExt (Json.obj kvs) = Except.ok l →
      ∀ x, x ∈ l ↔ ∃ k v, (k, v) ∈ kvs ∧ pyStartsWith k "ext-" = true ∧
        pyReplace k "ext-" "" = x) ∧
    fetchAndExtract (Json.obj [("require", Json.obj [("php", Json.str ">=8.1"),
        ("ext-mbstring", Json.str "*"), ("ext-curl", Json.str "*")])]) =
      Except.ok (Json.str ">=8.1", ["curl", "mbstring"]) := by
  constructor
  · intro kvs l h x
    have hrfl : extractExt (Json.obj kvs) = Except.ok (strSort
        (((kvs.map Prod.fst).filter (fun k => pyStartsWith k "ext-")).map
          (fun k => pyReplace k "ext-" ""))) := rfl
    rw [hrfl] at h
    simp only [Except.ok.injEq] at h
    rw [← h, mem_strSort, List.mem_map]
    constructor
    · rintro ⟨k, hk, hrep⟩
      rw [List.mem_filter] at hk
      obtain ⟨hkm, hkp⟩ := hk
      rw [List.mem_map] at hkm
      obtain ⟨pr, hpr, hfst⟩ := hkm
      refine ⟨pr.1, pr.2, by simpa using hpr, ?_, ?_⟩
      · rw [hfst]; exact hkp
      · rw [hfst]; exact hrep
    · rintro ⟨k, v, hkv, hkp, hrep⟩
      exact ⟨k, List.mem_filter.mpr ⟨List.mem_map.mpr ⟨(k, v), hkv, rfl⟩, hkp⟩, hrep⟩
  · rfl

/-- Witness for the C1 amended theorem at the scenario manifest. -/
theorem c1_amended_witness :
    ("curl" ∈ ["curl", "mbstring"] ↔ ∃ k v,
      (k, v) ∈ [("php", Json.str ">=8.1"), ("ext-mbstring", Json.str "*"),
        ("ext-curl", Json.str "*")] ∧
      pyStartsWith k "ext-" = true ∧ pyReplace k "ext-" "" = "curl") :=
  c1_amended.1 [("php", Json.str ">=8.1"), ("ext-mbstring", Json.str "*"),
    ("ext-curl", Json.str "*")] ["curl", "mbstring"] rfl "curl"

/-- C2 counterexample: a manifest whose keys contain further
occurrences of `"ext-"` yields an extension list with duplicates and
with an entry that still carries the `"ext-"` prefix. -/
theorem c2_counterexample :
    extractExt (Json.obj [("ext-curl", Json.str "*"), ("ext-ext-curl", Json.str "*"),
      ("ext-exext-t-curl", Json.str "*")]) = Except.ok ["curl", "curl", "ext-curl"] ∧
    ¬ ["curl", "curl", "ext-curl"].Nodup ∧
    pyStartsWith "ext-curl" "ext-" = true :=
  ⟨rfl, by decide, rfl⟩

/-- C2 amended: every successfully extracted extension list is sorted
ascending by the code-point string order, but it can retain the naming
prefix and contain duplicate names when require keys contain additional
occurrences of `"ext-"` beyond the leading prefix. -/
theorem c2_amended (req : Json) (l : List String) (h : extractExt req = Except.ok l) :
    List.Sorted (fun a b => strLe a b = true) l := by
  cases req
  case obj kvs =>
    have hrfl : extractExt (Json.obj kvs) = Except.ok (strSort
        (((kvs.map Prod.fst).filter (fun k => pyStartsWith k "ext-")).map
          (fun k => pyReplace k "ext-" ""))) := rfl
    rw [hrfl] at h
    simp only [Except.ok.injEq] at h
    exact h ▸ strSort_sorted _
  all_goals exact Except.noConfusion h

/-- Witness for the C2 amended theorem at a concrete manifest. -/
theorem c2_amended_witness :
    List.Sorted (fun a b => strLe a b = true) ["curl", "curl", "ext-curl"] :=
  c2_amended (Json.obj [("ext-curl", Json.str "*"), ("ext-ext-curl", Json.str "*"),
    ("ext-exext-t-curl", Json.str "*")]) ["curl", "curl", "ext-curl"] rfl

/-- C7 confirmed: when the popular-list fetch fails, the packagist run
proceeds with zero sources, records exactly the single top-level error
`"popular list: ..."`, and still terminates normally with an empty
results mapping. -/
theorem c7_confirmed (e : String) (fetch : String → Except String Json) (topN : Nat) :
    runPackagist (Except.error e) fetch topN = ([], ["popular list: " ++ e]) := rfl

/-- C8 counterexample: extraction performs no case normalisation.  The
keys `"ext-CURL"` and `"ext-curl"` differ only in letter case yet yield
the two distinct extension names `"CURL"` and `"curl"`. -/
theorem c8_counterexample :
    extractExt (Json.obj [("ext-CURL", Json.str "*"), ("ext-curl", Json.str "*")]) =
      Except.ok ["CURL", "curl"] ∧
    lowerStr "ext-CURL" = lowerStr "ext-curl" ∧
    ("CURL" : String) ≠ "curl" :=
  ⟨rfl, rfl, by decide⟩

/-- C8 amended: extension names preserve the letter case of the require
key verbatim (they are the key with the occurrences of `"ext-"`
removed); keys differing only in case therefore yield distinct names. -/
theorem c8_amended :
    (∀ k v, pyStartsWith k "ext-" = true →
      extractExt (Json.obj [(k, v)]) = Except.ok [pyReplace k "ext-" ""]) ∧
    extractExt (Json.obj [("ext-CURL", Json.str "*"), ("ext-curl", Json.str "*")]) =
      Except.ok ["CURL", "curl"] := by
  constructor
  · intro k v h
    have hrfl : extractExt (Json.obj [(k, v)]) = Except.ok (strSort
        (([k].filter (fun k2 => pyStartsWith k2 "ext-")).map
          (fun k2 => pyReplace k2 "ext-" ""))) := rfl
    rw [hrfl]
    simp only [List.filter_cons, h, if_true, List.filter_nil, List.map_cons, List.map_nil]
    rfl
  · rfl

/-- Witness for the C8 amended theorem at a mixed-case key. -/
theorem c8_amended_witness :
    extractExt (Json.obj [("ext-Foo", Json.str "*")]) =
      Except.ok [pyReplace "ext-Foo" "ext-" ""] :=
  c8_amended.1 "ext-Foo" (Json.str "*") rfl

/-- C10 confirmed: one popular-list entry without a `name` field makes
the whole comprehension raise inside the discovery `try` block, so the
run proceeds with zero sources and exactly one top-level error — even
though the first entry is well-formed and the malformed entry lies
beyond the top-N truncation, which happens only after the
comprehension. -/
theorem c10_confirmed (fetch : String → Except String Json) :
    discover badEntryPop 1 = Except.error "KeyError: name" ∧
    runPackagist badEntryPop fetch 1 = ([], ["popular list: KeyError: name"]) ∧
    discover (Except.ok (Json.obj [("packages",
      Json.arr [Json.obj [("name", Json.str "laravel/laravel")]])])) 1 =
      Except.ok [Json.str "laravel/laravel"] :=
  ⟨rfl, rfl, rfl⟩

/-- Bind of a success on the error monad used by the embedding. -/
theorem exceptBind_ok {α β : Type} (a : α) (f : α → Except String β) :
    (Except.ok a >>= f) = f a := rfl

/-- Total occurrence count of one element over duplicate-free lists is
the number of lists containing it. -/
theorem freqCount_eq_countP (lists : List (List String)) (e : String) :
    (∀ l ∈ lists, l.Nodup) →
    freqCount lists e = lists.countP (fun l => decide (e ∈ l)) := by
  induction lists with
  | nil => intro _; rfl
  | cons l ls ih =>
    intro h
    have hl := h l (List.mem_cons_self l ls)
    have hls : ∀ l2 ∈ ls, l2.Nodup := fun l2 h2 => h l2 (List.mem_cons_of_mem l h2)
    have hfc : freqCount (l :: ls) e = l.countP (fun x => decide (x = e)) + freqCount ls e := by
      simp [freqCount]
    rw [List.countP_cons, hfc, ih hls, countP_eq_of_nodup l e hl]
    by_cases hme : e ∈ l
    · simp only [hme, if_true, decide_eq_true_eq, if_pos]
      omega
    · rw [if_neg hme, if_neg (by simpa using hme)]
      omega

/-- C3 counterexample: with one successful source whose manifest
declares both `ext-curl` and `ext-ext-curl`, the frequency value for
`"curl"` is 2 although only 1 result exists and only 1 result contains
`"curl"` — `Counter.update` counts in-source multiplicity, so
`frequency[e] <= len(results)` fails. -/
theorem c3_counterexample :
    (runFramework badFetch).1.length = 1 ∧
    freqCount ((runFramework badFetch).1.map (fun p => p.2.extensions)) "curl" = 2 ∧
    (runFramework badFetch).1.countP (fun p => decide ("curl" ∈ p.2.extensions)) = 1 ∧
    ¬ ((2 : Nat) ≤ 1) :=
  ⟨rfl, rfl, rfl, by decide⟩

/-- C3 amended: the frequency value of `e` is the total number of
occurrences of `e` across the per-source extension lists; whenever each
list is duplicate-free it equals the number of results whose list
contains `e` and is therefore bounded by the number of results. -/
theorem c3_amended (lists : List (List String)) (e : String)
    (h : ∀ l ∈ lists, l.Nodup) :
    freqCount lists e = lists.countP (fun l => decide (e ∈ l)) ∧
    freqCount lists e ≤ lists.length := by
  have key := freqCount_eq_countP lists e h
  exact ⟨key, key ▸ List.countP_le_length _⟩

/-- Witness for the C3 amended theorem on two duplicate-free lists. -/
theorem c3_amended_witness :
    freqCount [["a", "b"], ["b"]] "b" =
      [["a", "b"], ["b"]].countP (fun l => decide ("b" ∈ l)) ∧
    freqCount [["a", "b"], ["b"]] "b" ≤ ([["a", "b"], ["b"]] : List (List String)).length :=
  c3_amended [["a", "b"], ["b"]] "b" (by decide)

/-- C4 counterexample: a popular list naming the same package twice
enumerates two sources, but both loop iterations assign the same
`package_ext` key, so `len(results) + len(errors) = 1 ≠ 2`. -/
theorem c4_counterexample :
    discover dupPop 100 = Except.ok [Json.str "a", Json.str "a"] ∧
    (runPackagist dupPop emptyVersionsFetch 100).1.length +
      (runPackagist dupPop emptyVersionsFetch 100).2.length = 1 ∧
    (1 : Nat) ≠ 2 :=
  ⟨rfl, rfl, by decide⟩

/-- C4 amended: the framework scan's five source names are pairwise
distinct, and each appears in exactly one of results and errors, with
`len(results) + len(errors)` equal to the number of sources; for the
packagist scan the same length equation holds whenever the discovered
names are pairwise distinct as Python dict keys (no two compare equal
under Python `==`, which identifies `True` with `1` and `False` with
`0`); names that collide as dict keys break it — both duplicated
strings and a `true`/`1` pair, which yield a single `package_ext`
entry for two enumerated sources. -/
theorem c4_amended :
    (∀ fetch : String → Except String Json,
      (runFramework fetch).1.length + (runFramework fetch).2.length = frameworks.length ∧
      ∀ s ∈ frameworks,
        (((runFramework fetch).1.any (fun p => decide (p.1 = s.1))) = true ∧
         ((runFramework fetch).2.any (fun p => decide (p.1 = s.1))) = false) ∨
        (((runFramework fetch).1.any (fun p => decide (p.1 = s.1))) = false ∧
         ((runFramework fetch).2.any (fun p => decide (p.1 = s.1))) = true)) ∧
    (∀ pop fetch topN names, discover pop topN = Except.ok names →
      List.Pairwise (fun a b => keyBeq a b = false) names →
      (runPackagist pop fetch topN).1.length + (runPackagist pop fetch topN).2.length
        = names.length) ∧
    (discover boolIntPop 100 = Except.ok [Json.bool true, Json.num 1] ∧
      keyBeq (Json.bool true) (Json.num 1) = true ∧
      (runPackagist boolIntPop emptyVersionsFetch 100).1.length +
        (runPackagist boolIntPop emptyVersionsFetch 100).2.length = 1) := by
  refine ⟨?_, ?_, rfl, rfl, rfl⟩
  · intro fetch
    have h := fwFold_main fetch frameworks ([], []) (by decide)
      (fun s _ => rfl) (fun s _ => rfl)
    simpa [runFramework] using h
  · intro pop fetch topN names hdisc hnd
    have hrun : runPackagist pop fetch topN = names.foldl (pkgStep fetch) ([], []) := by
      unfold runPackagist
      rw [hdisc]
    rw [hrun]
    have h := pkgFold_len fetch names ([], []) hnd (fun n _ => rfl)
    simpa using h

/-- Witness for the C4 amended theorem: a discovery of one package name
with an empty-versions response gives one result and no error. -/
theorem c4_amended_witness :
    (runPackagist onePkgPop emptyVersionsFetch 100).1.length +
      (runPackagist onePkgPop emptyVersionsFetch 100).2.length =
      ([Json.str "a"] : List Json).length :=
  c4_amended.2.1 onePkgPop emptyVersionsFetch 100 [Json.str "a"] rfl
    (List.pairwise_singleton _ _)

/-- C5 counterexample: a `require` value of the wrong shape (a list)
makes the extraction raise `AttributeError` inside the per-source `try`
block, so the source is recorded as an error — it does not get an empty
ManifestRecord as claimed. -/
theorem c5_counterexample :
    fetchAndExtract (Json.obj [("require", Json.arr [Json.str "ext-curl"])]) =
      Except.error "AttributeError: keys" ∧
    (runFramework badReqFetch).2 = [("Laravel", "AttributeError: keys")] ∧
    (runFramework badReqFetch).1.any (fun p => decide (p.1 = "Laravel")) = false :=
  ⟨rfl, rfl, rfl⟩

/-- C5 amended: an absent `require` key is treated as an empty mapping
and yields an empty extension list with empty runtime constraint, but a
present `require` value of non-mapping shape raises, so the per-source
handler records that source as an error instead. -/
theorem c5_amended :
    (∀ kvs, lookupKey kvs "require" = none →
      fetchAndExtract (Json.obj kvs) = Except.ok (Json.str "", [])) ∧
    (∀ kvs v, lookupKey kvs "require" = some v → (∀ fields, v ≠ Json.obj fields) →
      ∃ e, fetchAndExtract (Json.obj kvs) = Except.error e) := by
  constructor
  · intro kvs h
    have h1 : dictGetD (Json.obj kvs) "require" (Json.obj []) = Except.ok (Json.obj []) := by
      simp [dictGetD, h]
    unfold fetchAndExtract
    rw [h1]
    rfl
  · intro kvs v h hobj
    have h1 : dictGetD (Json.obj kvs) "require" (Json.obj []) = Except.ok v := by
      simp [dictGetD, h]
    refine ⟨"AttributeError: keys", ?_⟩
    unfold fetchAndExtract
    rw [h1]
    cases v
    case obj fields => exact absurd rfl (hobj fields)
    all_goals rfl

/-- Witness for the C5 amended theorem: a manifest without `require`
succeeds with no extensions, one with a numeric `require` raises. -/
theorem c5_amended_witness :
    fetchAndExtract (Json.obj [("name", Json.str "x")]) = Except.ok (Json.str "", []) ∧
    ∃ e, fetchAndExtract (Json.obj [("require", Json.num 3)]) = Except.error e :=
  ⟨c5_amended.1 [("name", Json.str "x")] rfl,
   c5_amended.2 [("require", Json.num 3)] (Json.num 3) rfl (fun _ h => Json.noConfusion h)⟩

/-- C6 confirmed: an empty `versions` mapping yields an empty extension
list and no error; the selection loop returns the first version key not
containing `"dev"` and otherwise falls back to the first key; the
selected version's `require` mapping is the one extracted (stable pick
`"2.0"` yields `["curl"]`, the all-dev fallback to `"1.0-dev"` yields
`["a"]`); and a discovered package with empty versions lands in the
results mapping with `[]`, leaving the error list empty. -/
theorem c6_confirmed :
    (∀ data pkg, dictGetD data "package" (Json.obj []) = Except.ok pkg →
      dictGetD pkg "versions" (Json.obj []) = Except.ok (Json.obj []) →
      processPackage data = Except.ok []) ∧
    (∀ ks, ks ≠ [] → ∃ v, chooseVersion ks = some v ∧
      ((pyContains v "dev" = false ∧
        ∃ pre post, ks = pre ++ v :: post ∧ ∀ w ∈ pre, pyContains w "dev" = true) ∨
       ((∀ w ∈ ks, pyContains w "dev" = true) ∧ ks.head? = some v))) ∧
    processPackage (verData [("1.0-dev", Json.obj [("require", Json.obj [("ext-a", Json.str "*")])]),
      ("2.0", Json.obj [("require", Json.obj [("ext-curl", Json.str "*")])])]) =
      Except.ok ["curl"] ∧
    processPackage (verData [("1.0-dev", Json.obj [("require", Json.obj [("ext-a", Json.str "*")])]),
      ("2.0-dev", Json.obj [("require", Json.obj [("ext-b", Json.str "*")])])]) =
      Except.ok ["a"] ∧
    runPackagist onePkgPop emptyVersionsFetch 100 = ([(Json.str "a", [])], []) := by
  refine ⟨?_, chooseVersion_spec, rfl, rfl, rfl⟩
  intro data pkg h1 h2
  unfold processPackage
  simp only [h1, exceptBind_ok]
  simp only [h2, exceptBind_ok]
  rfl

/-- Witness for the C6 theorem: metadata with an empty `versions`
mapping contributes an empty extension list. -/
theorem c6_confirmed_witness :
    processPackage (Json.obj [("package", Json.obj [("versions", Json.obj [])])]) =
      Except.ok [] :=
  c6_confirmed.1 (Json.obj [("package", Json.obj [("versions", Json.obj [])])])
    (Json.obj [("versions", Json.obj [])]) rfl rfl

/-- C9 counterexample: in the packagist report the per-source section is
rendered after the frequency table (line 17 versus line 7 for the union
section in a concrete run), not between the error list and the
aggregate sections as claimed. -/
theorem c9_counterexample :
    idxOfStr cexReportList "## Aggregate (union)" = 7 ∧
    idxOfStr cexReportList "## Per-package (extensions)" = 17 ∧
    ¬ ((17 : Nat) < 7) :=
  ⟨rfl, rfl, by decide⟩

/-- C9 amended: the framework report has the claimed fixed order
(title block, error section omitted exactly when there are no errors,
per-source blocks in enumeration order, union section, frequency
section), while the packagist report renders title block, optional
error section, union section, frequency section and only then the
per-package section, whose lines are sorted by package name and carry
no source URL or runtime constraint; in both reports the frequency
rows are sorted ascending by extension name. -/
theorem c9_amended :
    (∀ now results errors, frameworkReport now results errors =
      fwTitle now ++ (if errors.isEmpty then [] else fwErrSection errors)
      ++ ["## Per-framework requirements", ""] ++ (results.map fwBlock).flatten
      ++ unionSection (results.map (fun p => p.2.extensions))
      ++ freqSection (results.map (fun p => p.2.extensions))) ∧
    (∀ now topN packageExt errors, packagistReport now topN packageExt errors =
      pkTitle now topN ++ (if errors.isEmpty then [] else pkErrSection errors)
      ++ unionSection (packageExt.map Prod.snd) ++ freqSection (packageExt.map Prod.snd)
      ++ ["## Per-package (extensions)", ""] ++ (sortByKey packageExt).map pkgLine) ∧
    (∀ lists, List.Sorted (fun a b => strLe a b = true) (allExtSorted lists)) ∧
    (∀ packageExt, List.Sorted (fun a b => strLe a b = true)
      ((sortByKey packageExt).map (fun p => pyStr p.1))) := by
  refine ⟨?_, ?_, ?_, ?_⟩
  · intro now results errors
    simp only [frameworkReport, fwTitle, fwErrSection, unionSection, freqSection,
      List.append_assoc, List.cons_append, List.nil_append]
  · intro now topN packageExt errors
    simp only [packagistReport, pkTitle, pkErrSection, unionSection, freqSection,
      List.append_assoc, List.cons_append, List.nil_append]
  · intro lists
    exact strSort_sorted _
  · intro packageExt
    have hs : List.Sorted (fun p q : Json × List String => strLe (pyStr p.1) (pyStr q.1) = true)
        (sortByKey packageExt) := List.sorted_insertionSort _ _
    exact List.Pairwise.map _ (fun a b hab => hab) hs
